import Mathlib

/-! Verification development for the copilot-usage tool: a shallow embedding of
its Go implementation (main.go) and of the TypeScript variant (index.ts), with
theorems about plan and limit resolution, usage aggregation, percentage
formatting, and the i3bar streaming multiplexer.  Machine floating-point
values are modelled as exact rationals; every concrete value exercised by a
theorem below is decided identically by the two representations. -/

namespace GoImpl

/-- Digit run evaluation: a nonempty all-digit character list as a number,
none otherwise.  Helper for the strconv.Atoi model. -/
def digitsVal : List Char → Option Nat
  | [] => none
  | cs =>
    if cs.all Char.isDigit then
      some (cs.foldl (fun a c => a * 10 + (c.toNat - 48)) 0)
    else none

/-- Model of strconv.Atoi as used by getLimit (main.go:197): optional sign,
decimal digits only, error (none) on an empty string, on stray characters,
or on 64-bit overflow. -/
def atoi (s : String) : Option Int :=
  let signRest : Int × List Char :=
    match s.toList with
    | '-' :: t => (-1, t)
    | '+' :: t => (1, t)
    | t => (1, t)
  match digitsVal signRest.2 with
  | none => none
  | some n =>
    let v : Int := signRest.1 * n
    if v < -(2 ^ 63) ∨ 2 ^ 63 ≤ v then none else some v

/-- The plan table (main.go:26-32); lookup models Go map indexing plans[k]. -/
def plansLookup (k : String) : Option Int :=
  if k = "free" then some 50
  else if k = "pro" then some 300
  else if k = "pro+" then some 1500
  else if k = "business" then some 300
  else if k = "enterprise" then some 1000
  else none

/-- getPlan (main.go:180-190): a nonempty CLI plan string is returned verbatim,
with no table validation; a nonempty environment plan is used only when it is
a table key; otherwise the default plan. -/
def getPlan (cliPlan envPlan : String) : String :=
  if cliPlan ≠ "" then cliPlan
  else if envPlan ≠ "" then
    if (plansLookup envPlan).isSome then envPlan else "pro+"
  else "pro+"

/-- Environment-limit branch of getLimit (main.go:196-200): a nonempty value
that Atoi parses to a positive number, otherwise nothing. -/
def envLimitVal (envLimit : String) : Option Int :=
  if envLimit ≠ "" then
    match atoi envLimit with
    | some parsed => if 0 < parsed then some parsed else none
    | none => none
  else none

/-- getLimit (main.go:192-205): positive CLI limit, else positive parsed
environment limit, else the plan table entry, else 1500. -/
def getLimit (cliLimit : Int) (envLimit : String) (plan : String) : Int :=
  if 0 < cliLimit then cliLimit
  else
    match envLimitVal envLimit with
    | some parsed => parsed
    | none =>
      match plansLookup plan with
      | some l => l
      | none => 1500

/-- Plan and limit resolution exactly as performed by main (main.go:55-56).
The Go variant validates neither the CLI plan string nor the CLI limit sign
before this point, so resolution is a total function with no error outcome. -/
def goConfig (planFlag : String) (limitFlag : Int) (envPlan envLimit : String) :
    String × Int :=
  let plan := getPlan planFlag envPlan
  (plan, getLimit limitFlag envLimit plan)

/-- Round a rational to the nearest integer with ties to even, as the %.1f
verb of fmt does on the tenths value. -/
def roundHalfEven (q : ℚ) : ℤ :=
  let f := ⌊q⌋
  if q - f < 1 / 2 then f
  else if 1 / 2 < q - f then f + 1
  else if f % 2 = 0 then f else f + 1

/-- Decimal rendering with one fractional digit, modelling fmt.Sprintf "%.1f"
(main.go:129 and main.go:284); exact rationals stand in for float64, and the
sign handling covers the nonnegative values the program produces. -/
def fmt1 (q : ℚ) : String :=
  let n := roundHalfEven (q * 10)
  let sign := if n < 0 then "-" else ""
  let a := n.natAbs
  sign ++ toString (a / 10) ++ "." ++ toString (a % 10)

/-- Percentage as printed by the Go variant (the "%.1f%%" verb at main.go:129
and main.go:284): always plain one-decimal, never a thousands abbreviation. -/
def percentString (q : ℚ) : String := fmt1 q ++ "%"

end GoImpl

/-- One usage line item, restricted to the two fields the program reads
(grossQuantity and model); float64 quantities are modelled as exact
rationals. -/
structure UsageItem where
  grossQuantity : ℚ
  model : String
deriving DecidableEq, Repr

/-- calculateTotalUsage (main.go:239-245 and index.ts:241-243): the running
sum of grossQuantity over the items, in input order. -/
def calculateTotalUsage (items : List UsageItem) : ℚ :=
  items.foldl (fun total it => total + it.grossQuantity) 0

namespace TsImpl

/-- parseInt(s, 10) of JavaScript: leading whitespace skipped, optional sign,
maximal leading digit run (at least one digit required, trailing junk
ignored), NaN (none) otherwise. -/
def parseIntJs (s : String) : Option Int :=
  let signRest : Int × List Char :=
    match s.toList.dropWhile Char.isWhitespace with
    | '-' :: t => (-1, t)
    | '+' :: t => (1, t)
    | t => (1, t)
  let ds := signRest.2.takeWhile Char.isDigit
  if ds.isEmpty then none
  else some (signRest.1 * ((ds.foldl (fun a c => a * 10 + (c.toNat - 48)) 0 : Nat) : Int))

/-- PLANS table lookup of index.ts:87-93; the table contents are identical to
the Go table, so the lookup is shared. -/
def plansLookup (k : String) : Option Int := GoImpl.plansLookup k

/-- String.prototype.toLowerCase restricted to the per-character lowering
relevant to plan names. -/
def toLowerStr (s : String) : String := String.mk (s.toList.map Char.toLower)

/-- CLI plan validation from parseCliArgs (index.ts:148-157): the value is
lowercased, then a falsy table entry (absent — all table values are nonzero)
is a fatal configuration error; an empty flag value is itself falsy and
skipped. -/
def validatePlan (cliPlan : Option String) : Except Unit (Option String) :=
  match cliPlan with
  | none => Except.ok none
  | some p =>
    if p = "" then Except.ok none
    else
      let key := toLowerStr p
      if (plansLookup key).getD 0 = 0 then Except.error ()
      else Except.ok (some key)

/-- CLI limit validation from parseCliArgs (index.ts:159-167): a nonempty
value must parse to a positive number or the run aborts. -/
def validateLimit (cliLimit : Option String) : Except Unit (Option Int) :=
  match cliLimit with
  | none => Except.ok none
  | some s =>
    if s = "" then Except.ok none
    else
      match parseIntJs s with
      | none => Except.error ()
      | some parsed =>
        if parsed ≤ 0 then Except.error () else Except.ok (some parsed)

/-- Environment fallback inside getPlan (index.ts:200-203): the lowercased
environment plan is used only when nonempty and mapped to a truthy table
value; otherwise the default plan. -/
def getPlanEnv (envPlan : Option String) : String :=
  match envPlan with
  | none => "pro+"
  | some e =>
    let l := toLowerStr e
    if l ≠ "" ∧ ¬(plansLookup l).getD 0 = 0 then l else "pro+"

/-- getPlan (index.ts:197-204): a truthy CLI plan wins outright, else the
environment fallback. -/
def getPlan (cliPlan envPlan : Option String) : String :=
  match cliPlan with
  | some p => if p ≠ "" then p else getPlanEnv envPlan
  | none => getPlanEnv envPlan

/-- Environment-limit branch of getLimit (index.ts:209-213). -/
def envLimitVal (envLimit : Option String) : Option Int :=
  match envLimit with
  | none => none
  | some e =>
    if e = "" then none
    else
      match parseIntJs e with
      | some parsed => if 0 < parsed then some parsed else none
      | none => none

/-- getLimit (index.ts:206-216): a defined CLI limit wins, else a positive
parsed environment limit, else the plan table entry (?? is nullish, so any
table hit wins), else 1500. -/
def getLimit (cliLimit : Option Int) (envLimit : Option String) (plan : String) : Int :=
  match cliLimit with
  | some l => l
  | none =>
    match envLimitVal envLimit with
    | some parsed => parsed
    | none => (plansLookup plan).getD 1500

/-- Rounding of a nonnegative rational to one decimal digit, ties choosing
the larger candidate, per the ECMAScript Number.prototype.toFixed
specification. -/
def toFixed1Pos (q : ℚ) : String :=
  let n := ⌊q * 10 + 1 / 2⌋
  let a := n.toNat
  toString (a / 10) ++ "." ++ toString (a % 10)

/-- toFixed(1) of ECMAScript on rationals: sign split, then half-up rounding
of the magnitude to tenths. -/
def toFixed1 (q : ℚ) : String :=
  if q < 0 then "-" ++ toFixed1Pos (-q) else toFixed1Pos q

/-- formatPercentage (index.ts:254-259): thousands are abbreviated with a k
suffix, everything below 1000 is plain one-decimal. -/
def formatPercentage (p : ℚ) : String :=
  if p ≥ 1000 then toFixed1 (p / 1000) ++ "k%" else toFixed1 p ++ "%"

/-- Category key of an item (index.ts:248): a falsy (empty) model label falls
to the reserved Unknown bucket. -/
def categoryKey (it : UsageItem) : String :=
  if it.model = "" then "Unknown" else it.model

/-- Association-list update modelling Map.prototype.set: an existing key
keeps its position, a new key is appended (JS Map preserves insertion
order). -/
def setAssoc (k : String) (v : ℚ) : List (String × ℚ) → List (String × ℚ)
  | [] => [(k, v)]
  | (k', v') :: t => if k' = k then (k, v) :: t else (k', v') :: setAssoc k v t

/-- Association-list read modelling modelCounts.get(model) || 0 — an absent
key reads as zero. -/
def getAssocD (k : String) : List (String × ℚ) → ℚ
  | [] => 0
  | (k', v') :: t => if k' = k then v' else getAssocD k t

/-- Loop body of aggregateByModel (index.ts:247-250): add the item quantity
onto its category's running sum. -/
def aggStep (m : List (String × ℚ)) (it : UsageItem) : List (String × ℚ) :=
  setAssoc (categoryKey it) (getAssocD (categoryKey it) m + it.grossQuantity) m

/-- aggregateByModel (index.ts:245-252): insertion-ordered per-category
sums. -/
def aggregateByModel (items : List UsageItem) : List (String × ℚ) :=
  items.foldl aggStep []

/-- Reference per-category sum: the total quantity of the items whose
category key is k, for stating grouping correctness. -/
def categorySum (k : String) (items : List UsageItem) : ℚ :=
  ((items.filter (fun it => categoryKey it == k)).map UsageItem.grossQuantity).sum

/-- Stable insertion step of the presenter sort: an element moves past
exactly the strictly larger counts, so equal counts keep earlier-first
order. -/
def insertByCountDesc (x : String × ℚ) : List (String × ℚ) → List (String × ℚ)
  | [] => [x]
  | e :: t => if x.2 < e.2 then e :: insertByCountDesc x t else x :: e :: t

/-- Model of Array.prototype.sort with comparator (a, b) => b[1] - a[1]
(index.ts:344), which ECMAScript 2019 requires to be stable; stable insertion
sort realises the unique stable descending-by-count ordering. -/
def sortByCountDesc : List (String × ℚ) → List (String × ℚ)
  | [] => []
  | h :: t => insertByCountDesc h (sortByCountDesc t)

/-- sortedModels (index.ts:344): the order in which the panel presenter lists
per-category entries. -/
def sortedModels (items : List UsageItem) : List (String × ℚ) :=
  sortByCountDesc (aggregateByModel items)

end TsImpl

namespace GoImpl

/-- Shape of the usage document (main.go:20-22). -/
structure UsageResponse where
  usageItems : List UsageItem
deriving DecidableEq, Repr

/-- The synthetic status element; main.go:127-131 builds it as a JSON object
with exactly these three fields. -/
structure BarItem where
  name : String
  full_text : String
  color : String
deriving DecidableEq, Repr

/-- Go strings.Repeat with an int count as used for the bar glyphs; int() in
Go truncates toward zero, and a negative count (which would panic in Go) is
rendered empty here — no claim exercises that corner. -/
def repGlyph (n : Int) (c : Char) : String := String.mk (List.replicate n.toNat c)

/-- Truncation toward zero: Go's int(float64) conversion, on rationals. -/
def trunc (q : ℚ) : Int := Int.tdiv q.num (q.den : Int)

/-- The synthetic usage element built from the fetched percentage
(main.go:120-131): ten-glyph bar with the filled part clamped at ten, a
one-decimal percentage text, and the constant green colour. -/
def mkCachedItem (percentage : ℚ) : BarItem :=
  let filled0 := trunc (percentage / 10)
  let filled := if filled0 > 10 then 10 else filled0
  let empty := 10 - filled
  { name := "copilot"
    full_text := "Copilot: " ++ repGlyph filled '█' ++ repGlyph empty '░' ++ " "
      ++ fmt1 percentage ++ "%"
    color := "#00FF00" }

/-- Multiplexer state (main.go:98-100): the first-output flag, the timestamp
of the last fetch in whole seconds (0 models the zero time.Time), and the
cached synthetic element.  The element type is kept generic so frames may
carry arbitrary JSON objects. -/
structure I3State (α : Type) where
  first : Bool
  lastFetch : Nat
  cachedItem : Option α
deriving DecidableEq, Repr

/-- Initial state of the scanner loop. -/
def i3Init {α : Type} : I3State α := ⟨true, 0, none⟩

/-- Environment of the loop: the JSON array codec (json.Unmarshal and
json.Marshal on element lists are kept abstract), the synthetic-element
constructor (instantiated with mkCachedItem on the concrete element type),
and the resolved limit. -/
structure I3Env (α : Type) where
  parse : String → Option (List α)
  render : List α → String
  usageOf : ℚ → α
  limit : Int

/-- Model of strings.TrimSpace (main.go:104): leading and trailing
whitespace removed.  Char.isWhitespace covers the ASCII whitespace relevant
to the protocol lines. -/
def trimSpace (s : String) : String :=
  String.mk (((s.toList.dropWhile Char.isWhitespace).reverse.dropWhile Char.isWhitespace).reverse)

/-- Framing filter (main.go:106-108): blank lines, the opening array marker,
and the version-header echo are discarded, everything else is a content
line. -/
def isContentLine (l : String) : Bool :=
  let t := trimSpace l
  !(t == "" || t == "[" || t == "\x7b\"version\":1\x7d")

/-- Body of a content line (main.go:104 and 110-113): whitespace-trimmed,
with the leading comma of a continuation frame stripped. -/
def contentBody (l : String) : String :=
  let t := trimSpace l
  match t.toList with
  | ',' :: rest => String.mk rest
  | _ => t

/-- Refresh decision (main.go:115): fetch when the cache is more than sixty
seconds old or absent; truncated Nat subtraction mirrors the nonnegative
elapsed duration. -/
def needFetch {α : Type} (st : I3State α) (now : Nat) : Bool :=
  decide (60 < now - st.lastFetch) || st.cachedItem.isNone

/-- One scanner-line event: arrival time, the raw line, and the outcome a
usage fetch at this moment would have.  Except.error models fetchUsage
reporting the failure and calling os.Exit(1) (main.go:223-234). -/
structure LineEvent where
  now : Nat
  line : String
  fetch : Except Unit UsageResponse

/-- Fetch-or-reuse phase of the loop body (main.go:115-133): on a due
refresh, recompute the percentage and rebuild the cached element, stamping
the fetch time; otherwise reuse the cache, which the refresh decision
guarantees is present.  An error propagates the fatal fetch failure. -/
def fetchPhase {α : Type} (env : I3Env α) (st : I3State α) (ev : LineEvent) :
    Except Unit (α × Nat × Bool) :=
  if needFetch st ev.now then
    match ev.fetch with
    | Except.error _ => Except.error ()
    | Except.ok usage =>
      let percentage := calculateTotalUsage usage.usageItems / (env.limit : ℚ) * 100
      Except.ok (env.usageOf percentage, ev.now, true)
  else
    match st.cachedItem with
    | some c => Except.ok (c, st.lastFetch, false)
    | none => Except.error ()

/-- Emission phase (main.go:135-155): a body that parses as an element array
is re-serialised with the cached element prepended; an unparseable body
passes through; in both branches the leading comma follows the first-output
flag. -/
def emitPhase {α : Type} (env : I3Env α) (first : Bool) (cached : α) (body : String) : String :=
  match env.parse body with
  | some items => (if first then "" else ",") ++ env.render (cached :: items)
  | none => (if first then "" else ",") ++ body

/-- One iteration of the scanner loop (main.go:102-156): framing lines leave
the state untouched; a content line runs the fetch phase and emits exactly
one output line, clearing the first-output flag.  The result carries the new
state, the emitted line, and whether a fetch was performed. -/
def i3Step {α : Type} (env : I3Env α) (st : I3State α) (ev : LineEvent) :
    Except Unit (I3State α × Option String × Bool) :=
  if isContentLine ev.line then
    match fetchPhase env st ev with
    | Except.error _ => Except.error ()
    | Except.ok (cached, t, fetched) =>
      Except.ok (⟨false, t, some cached⟩,
        some (emitPhase env st.first cached (contentBody ev.line)), fetched)
  else Except.ok (st, none, false)

/-- The streaming run over a finite trace of scanner lines: the emitted lines
and the number of fetches performed, or the fatal exit. -/
def i3Run {α : Type} (env : I3Env α) : I3State α → List LineEvent → Except Unit (List String × Nat)
  | _, [] => Except.ok ([], 0)
  | st, ev :: rest =>
    match i3Step env st ev with
    | Except.error _ => Except.error ()
    | Except.ok (st', out, fetched) =>
      match i3Run env st' rest with
      | Except.error _ => Except.error ()
      | Except.ok (outs, n) => Except.ok (out.toList ++ outs, (if fetched then 1 else 0) + n)

/-- Emitted line of a step result, if any. -/
def stepOutput {α : Type} : Except Unit (I3State α × Option String × Bool) → Option String
  | Except.error _ => none
  | Except.ok (_, out, _) => out

/-- Concrete loop environment over real bar items in which no line parses;
the synthetic element is the real mkCachedItem and the limit is the pro
default. -/
def plainEnv : I3Env BarItem :=
  { parse := fun _ => none
    render := fun _ => ""
    usageOf := mkCachedItem
    limit := 300 }

/-- Comma-joined rendering for the toy single-letter frames used by
witnesses. -/
def joinComma : List String → String
  | [] => ""
  | [x] => x
  | x :: xs => x ++ "," ++ joinComma xs

/-- Concrete loop environment whose codec recognises the two single-element
frames of the specification example. -/
def abEnv : I3Env String :=
  { parse := fun s =>
      if s = "[\"A\"]" then some ["A"]
      else if s = "[\"B\"]" then some ["B"]
      else none
    render := fun items => "[" ++ joinComma items ++ "]"
    usageOf := fun _ => "usage"
    limit := 300 }

/-- A successful fetch returning an empty usage document. -/
def okFetch : Except Unit UsageResponse := Except.ok ⟨[]⟩

/-- First specification-example frame, arriving at second 100. -/
def evA : LineEvent := ⟨100, "[\"A\"]", okFetch⟩

/-- Continuation frame thirty seconds later — within the refresh interval. -/
def evB : LineEvent := ⟨130, ",[\"B\"]", okFetch⟩

/-- Continuation frame a hundred seconds later — past the refresh
interval. -/
def evBLate : LineEvent := ⟨200, ",[\"B\"]", okFetch⟩

/-- An unparseable content line carrying trailing whitespace. -/
def evRaw : LineEvent := ⟨100, "garbage ", okFetch⟩

/-- A content line arriving while the usage endpoint is failing. -/
def evFail : LineEvent := ⟨100, "[\"A\"]", Except.error ()⟩

/-- A state holding a cached element whose fetch is ninety seconds old. -/
def staleState : I3State BarItem := ⟨false, 10, some (mkCachedItem 0)⟩

end GoImpl

/-! Helper lemmas shared by several claims. -/

/-- Every value stored in the Go plan table is positive. -/
theorem plansLookup_pos (k : String) (l : Int) (h : GoImpl.plansLookup k = some l) :
    0 < l := by
  unfold GoImpl.plansLookup at h
  split_ifs at h <;> simp_all <;> omega

/-- A limit taken from the environment branch is positive. -/
theorem envLimitVal_pos (e : String) (p : Int) (h : GoImpl.envLimitVal e = some p) :
    0 < p := by
  unfold GoImpl.envLimitVal at h
  split_ifs at h
  · cases ha : GoImpl.atoi e with
    | none => rw [ha] at h; simp at h
    | some parsed =>
      rw [ha] at h
      by_cases hp : 0 < parsed
      · simp only [hp, if_true] at h
        simp at h
        omega
      · simp [hp] at h

/-- Concrete evaluation: the Go renderer prints 73.86 as 73.9. -/
theorem fmt1_at_7386 : GoImpl.fmt1 73.86 = "73.9" := by
  have h1 : GoImpl.roundHalfEven (73.86 * 10) = 739 := by
    simp only [GoImpl.roundHalfEven]
    rw [show ⌊(73.86 * 10 : ℚ)⌋ = 738 by norm_num]
    norm_num
  simp only [GoImpl.fmt1, h1]
  norm_num
  decide

/-- Concrete evaluation: the Go renderer prints 1234 as 1234.0. -/
theorem fmt1_at_1234 : GoImpl.fmt1 1234 = "1234.0" := by
  have h1 : GoImpl.roundHalfEven (1234 * 10) = 12340 := by
    simp only [GoImpl.roundHalfEven]
    rw [show ⌊(1234 * 10 : ℚ)⌋ = 12340 by norm_num]
    norm_num
  simp only [GoImpl.fmt1, h1]
  norm_num
  decide

/-- Concrete evaluation: toFixed(1) prints 73.86 as 73.9. -/
theorem toFixed1_at_7386 : TsImpl.toFixed1 73.86 = "73.9" := by
  have h1 : ⌊(73.86 : ℚ) * 10 + 1 / 2⌋ = 739 := by norm_num
  simp only [TsImpl.toFixed1, TsImpl.toFixed1Pos]
  norm_num [h1]
  decide

/-- Concrete evaluation: toFixed(1) prints 1234 / 1000 as 1.2. -/
theorem toFixed1_at_1234k : TsImpl.toFixed1 (1234 / 1000 : ℚ) = "1.2" := by
  have h1 : ⌊(1234 : ℚ) / 1000 * 10 + 1 / 2⌋ = 12 := by norm_num
  simp only [TsImpl.toFixed1, TsImpl.toFixed1Pos]
  norm_num [h1]
  decide

/-- Concrete evaluation: toFixed(1) prints 1000 / 1000 as 1.0. -/
theorem toFixed1_at_1000k : TsImpl.toFixed1 (1000 / 1000 : ℚ) = "1.0" := by
  have h1 : ⌊(1000 : ℚ) / 1000 * 10 + 1 / 2⌋ = 10 := by norm_num
  simp only [TsImpl.toFixed1, TsImpl.toFixed1Pos]
  norm_num [h1]
  decide

/-- Concrete evaluation shared by the C8 claim and counterexample: the Go
variant prints the percentage 1234 as plain 1234.0 percent. -/
theorem percentString_at_1234 : GoImpl.percentString 1234 = "1234.0%" := by
  simp only [GoImpl.percentString, fmt1_at_1234]
  decide

/-- C10: in status-bar mode the synthetic usage element carries the constant
colour "#00FF00" for every usage percentage; no threshold colour policy is
applied to it. -/
theorem claimC10_constant_color (percentage : ℚ) :
    (GoImpl.mkCachedItem percentage).color = "#00FF00" := rfl

/-- C6: for every combination of CLI limit value, environment limit string,
and plan name, the Go limit resolver returns a strictly positive effective
limit — non-positive or unparseable overrides never become the result. -/
theorem claimC6_limit_positive (cliLimit : Int) (envLimit : String) (plan : String) :
    0 < GoImpl.getLimit cliLimit envLimit plan := by
  by_cases hc : 0 < cliLimit
  · simp [GoImpl.getLimit, hc]
  · simp only [GoImpl.getLimit, hc, if_false]
    cases he : GoImpl.envLimitVal envLimit with
    | some parsed => exact envLimitVal_pos _ _ he
    | none =>
      cases hp : GoImpl.plansLookup plan with
      | some l => exact plansLookup_pos _ _ hp
      | none => norm_num

/-- C5: limit resolution precedence — a positive CLI override wins; else a
positive parseable environment override; else the plan table entry for the
resolved plan; else 1500 — together with the four concrete scenarios of the
specification, in both the Go and the TS variant. -/
theorem claimC5_limit_precedence :
    (∀ (cli : Int) (env plan : String), 0 < cli → GoImpl.getLimit cli env plan = cli)
  ∧ (∀ (cli : Int) (env plan : String) (p : Int), ¬0 < cli →
      GoImpl.envLimitVal env = some p → GoImpl.getLimit cli env plan = p)
  ∧ (∀ (cli : Int) (plan : String), ¬0 < cli →
      GoImpl.getLimit cli "" plan = (GoImpl.plansLookup plan).getD 1500)
  ∧ GoImpl.getLimit 500 "200" "pro" = 500
  ∧ GoImpl.getLimit 0 "200" "pro" = 200
  ∧ GoImpl.getLimit 0 "" "pro" = 300
  ∧ GoImpl.getLimit 0 "" (GoImpl.getPlan "" "") = 1500
  ∧ TsImpl.getLimit (some 500) (some "200") "pro" = 500
  ∧ TsImpl.getLimit none (some "200") "pro" = 200
  ∧ TsImpl.getLimit none none "pro" = 300
  ∧ TsImpl.getLimit none none (TsImpl.getPlan none none) = 1500 := by
  refine ⟨?_, ?_, ?_, ?_, ?_, ?_, ?_, ?_, ?_, ?_, ?_⟩
  · intro cli env plan h
    simp [GoImpl.getLimit, h]
  · intro cli env plan p hc he
    simp [GoImpl.getLimit, hc, he]
  · intro cli plan hc
    have he : GoImpl.envLimitVal "" = none := by decide
    simp only [GoImpl.getLimit, hc, if_false, he]
    cases hp : GoImpl.plansLookup plan <;> simp [hp]
  · decide
  · decide
  · decide
  · decide
  · decide
  · decide
  · decide
  · decide

/-- Witness for C5: the precedence clauses applied at concrete inputs. -/
theorem claimC5_witness :
    GoImpl.getLimit 500 "" "pro" = 500
      ∧ GoImpl.getLimit (-3) "4" "pro" = 4
      ∧ GoImpl.getLimit 0 "" "free" = 50 :=
  ⟨claimC5_limit_precedence.1 500 "" "pro" (by decide),
   claimC5_limit_precedence.2.1 (-3) "4" "pro" 4 (by decide) (by decide),
   by
     have h := claimC5_limit_precedence.2.2.1 0 "free" (by decide)
     simpa using h⟩

/-- C4 (amended): an unknown plan name supplied via the CLI flag is a fatal
configuration error in the TS variant only; the Go variant returns any
nonempty CLI plan string verbatim with no validation, so resolution continues
and the limit later falls through to the 1500 fallback.  In both variants an
unrecognized environment-supplied plan name is silently ignored and the plan
falls back to the default pro+. -/
theorem claimC4_plan_validation :
    (∀ p : String, p ≠ "" → (TsImpl.plansLookup (TsImpl.toLowerStr p)).getD 0 = 0 →
      TsImpl.validatePlan (some p) = Except.error ())
  ∧ (∀ p env : String, p ≠ "" → GoImpl.getPlan p env = p)
  ∧ (∀ env : String, GoImpl.plansLookup env = none → GoImpl.getPlan "" env = "pro+")
  ∧ (∀ e : String, (TsImpl.plansLookup (TsImpl.toLowerStr e)).getD 0 = 0 →
      TsImpl.getPlan none (some e) = "pro+") := by
  refine ⟨?_, ?_, ?_, ?_⟩
  · intro p hp hk
    simp [TsImpl.validatePlan, hp, hk]
  · intro p env hp
    simp [GoImpl.getPlan, hp]
  · intro env h
    by_cases he : env = ""
    · simp [GoImpl.getPlan, he]
    · simp [GoImpl.getPlan, he, h]
  · intro e h
    simp [TsImpl.getPlan, TsImpl.getPlanEnv, h]

/-- C4 counterexample: in the Go variant the unknown CLI plan name "bogus" is
not a configuration error — plan and limit resolution succeed, yielding the
plan "bogus" with the fallback limit 1500, and the run proceeds to fetch. -/
theorem claimC4_cex : GoImpl.goConfig "bogus" 0 "" "" = ("bogus", 1500) := by decide

/-- Witness for C4: the validation clauses applied at the plan name "bogus". -/
theorem claimC4_witness :
    TsImpl.validatePlan (some "bogus") = Except.error ()
      ∧ GoImpl.getPlan "bogus" "" = "bogus"
      ∧ GoImpl.getPlan "" "bogus" = "pro+"
      ∧ TsImpl.getPlan none (some "bogus") = "pro+" :=
  ⟨claimC4_plan_validation.1 "bogus" (by decide) (by decide),
   claimC4_plan_validation.2.1 "bogus" "" (by decide),
   claimC4_plan_validation.2.2.1 "bogus" (by decide),
   claimC4_plan_validation.2.2.2 "bogus" (by decide)⟩

/-- C8 (amended): the TS formatPercentage renders values below 1000 with one
decimal and a percent sign (73.86 gives "73.9%") and values of 1000 or more
abbreviated as thousands with a k suffix (1000 gives "1.0k%", 1234 gives
"1.2k%"); the Go variant always renders plain one-decimal percentages, so
1234 gives "1234.0%" there, never "1.2k%". -/
theorem claimC8_percentage_format :
    (∀ p : ℚ, p < 1000 → TsImpl.formatPercentage p = TsImpl.toFixed1 p ++ "%")
  ∧ (∀ p : ℚ, 1000 ≤ p → TsImpl.formatPercentage p = TsImpl.toFixed1 (p / 1000) ++ "k%")
  ∧ TsImpl.formatPercentage 73.86 = "73.9%"
  ∧ TsImpl.formatPercentage 1000 = "1.0k%"
  ∧ TsImpl.formatPercentage 1234 = "1.2k%"
  ∧ GoImpl.percentString 73.86 = "73.9%"
  ∧ GoImpl.percentString 1234 = "1234.0%" := by
  refine ⟨?_, ?_, ?_, ?_, ?_, ?_, percentString_at_1234⟩
  · intro p h
    simp [TsImpl.formatPercentage, not_le.2 h]
  · intro p h
    simp [TsImpl.formatPercentage, h]
  · rw [show TsImpl.formatPercentage 73.86 = TsImpl.toFixed1 73.86 ++ "%" by
      simp [TsImpl.formatPercentage, show ¬((73.86 : ℚ) ≥ 1000) by norm_num]]
    rw [toFixed1_at_7386]
    decide
  · rw [show TsImpl.formatPercentage 1000 = TsImpl.toFixed1 (1000 / 1000) ++ "k%" by
      simp [TsImpl.formatPercentage]]
    rw [toFixed1_at_1000k]
    decide
  · rw [show TsImpl.formatPercentage 1234 = TsImpl.toFixed1 (1234 / 1000) ++ "k%" by
      simp [TsImpl.formatPercentage, show ((1234 : ℚ) ≥ 1000) by norm_num]]
    rw [toFixed1_at_1234k]
    decide
  · rw [show GoImpl.percentString 73.86 = GoImpl.fmt1 73.86 ++ "%" from rfl, fmt1_at_7386]
    decide

/-- C8 counterexample: the Go variant renders the percentage 1234.0 as
"1234.0%", not as the abbreviated "1.2k%" the claim asserts. -/
theorem claimC8_cex :
    GoImpl.percentString 1234 = "1234.0%" ∧ "1234.0%" ≠ "1.2k%" :=
  ⟨percentString_at_1234, by decide⟩

/-- Witness for C8: the two formatting branches applied at 73.86 and 1234. -/
theorem claimC8_witness :
    TsImpl.formatPercentage 73.86 = TsImpl.toFixed1 73.86 ++ "%"
      ∧ TsImpl.formatPercentage 1234 = TsImpl.toFixed1 (1234 / 1000) ++ "k%" :=
  ⟨claimC8_percentage_format.1 73.86 (by norm_num),
   claimC8_percentage_format.2.1 1234 (by norm_num)⟩

/-- A negative refresh decision means a cached element is present. -/
theorem needFetch_false_cache {α : Type} (st : GoImpl.I3State α) (now : Nat)
    (h : GoImpl.needFetch st now = false) : ∃ c, st.cachedItem = some c := by
  unfold GoImpl.needFetch at h
  cases hc : st.cachedItem with
  | none => rw [hc] at h; simp at h
  | some c => exact ⟨c, rfl⟩

/-- A step on a framing line leaves the state untouched, emits nothing, and
fetches nothing. -/
theorem i3Step_skip {α : Type} (env : GoImpl.I3Env α) (st : GoImpl.I3State α)
    (ev : GoImpl.LineEvent) (h : GoImpl.isContentLine ev.line = false) :
    GoImpl.i3Step env st ev = Except.ok (st, none, false) := by
  simp [GoImpl.i3Step, h]

/-- A due refresh against a failing endpoint is the fatal outcome. -/
theorem fetchPhase_err {α : Type} (env : GoImpl.I3Env α) (st : GoImpl.I3State α)
    (ev : GoImpl.LineEvent) (hn : GoImpl.needFetch st ev.now = true)
    (hf : ev.fetch = Except.error ()) :
    GoImpl.fetchPhase env st ev = Except.error () := by
  simp [GoImpl.fetchPhase, hn, hf]

/-- A due refresh against a working endpoint rebuilds the element and stamps
the fetch time. -/
theorem fetchPhase_fetch {α : Type} (env : GoImpl.I3Env α) (st : GoImpl.I3State α)
    (ev : GoImpl.LineEvent) (u : GoImpl.UsageResponse)
    (hn : GoImpl.needFetch st ev.now = true) (hf : ev.fetch = Except.ok u) :
    GoImpl.fetchPhase env st ev =
      Except.ok
        (env.usageOf (calculateTotalUsage u.usageItems / (env.limit : ℚ) * 100), ev.now, true) := by
  simp [GoImpl.fetchPhase, hn, hf]

/-- Without a due refresh the cached element and its timestamp are reused. -/
theorem fetchPhase_reuse {α : Type} (env : GoImpl.I3Env α) (st : GoImpl.I3State α)
    (ev : GoImpl.LineEvent) (c : α) (hn : GoImpl.needFetch st ev.now = false)
    (hc : st.cachedItem = some c) :
    GoImpl.fetchPhase env st ev = Except.ok (c, st.lastFetch, false) := by
  simp [GoImpl.fetchPhase, hn, hc]

/-- A step on a content line whose fetch phase succeeds emits one line built
by the emission phase and clears the first-output flag. -/
theorem i3Step_content {α : Type} (env : GoImpl.I3Env α) (st : GoImpl.I3State α)
    (ev : GoImpl.LineEvent) (c : α) (t : Nat) (f : Bool)
    (hc : GoImpl.isContentLine ev.line = true)
    (hf : GoImpl.fetchPhase env st ev = Except.ok (c, t, f)) :
    GoImpl.i3Step env st ev =
      Except.ok (⟨false, t, some c⟩,
        some (GoImpl.emitPhase env st.first c (GoImpl.contentBody ev.line)), f) := by
  simp [GoImpl.i3Step, hc, hf]

/-- C1: for every content line that parses as an element array, the emitted
frame is the rendering of the cached usage element consed in front of the
original elements — exactly one synthetic element, first, originals in their
original order — and the leading comma is present exactly on non-first
emitted frames, the first-output flag clearing on every emission. -/
theorem claimC1_frame_injection :
    (∀ (α : Type) (env : GoImpl.I3Env α) (st : GoImpl.I3State α) (ev : GoImpl.LineEvent)
        (items : List α),
        GoImpl.isContentLine ev.line = true →
        env.parse (GoImpl.contentBody ev.line) = some items →
        (GoImpl.needFetch st ev.now = true → ∃ u, ev.fetch = Except.ok u) →
        ∃ (c : α) (t : Nat) (f : Bool),
          GoImpl.i3Step env st ev =
            Except.ok (⟨false, t, some c⟩,
              some ((if st.first then "" else ",") ++ env.render (c :: items)), f))
  ∧ (∀ (α : Type) (env : GoImpl.I3Env α) (st st' : GoImpl.I3State α) (ev : GoImpl.LineEvent)
        (out : Option String) (f : Bool),
        GoImpl.i3Step env st ev = Except.ok (st', out, f) →
        st'.first = (st.first && out.isNone)) := by
  constructor
  · intro α env st ev items hc hp hfok
    cases hn : GoImpl.needFetch st ev.now with
    | false =>
      obtain ⟨c, hcache⟩ := needFetch_false_cache st ev.now hn
      refine ⟨c, st.lastFetch, false, ?_⟩
      rw [i3Step_content env st ev c st.lastFetch false hc (fetchPhase_reuse env st ev c hn hcache)]
      simp [GoImpl.emitPhase, hp]
    | true =>
      obtain ⟨u, hu⟩ := hfok hn
      refine ⟨env.usageOf (calculateTotalUsage u.usageItems / (env.limit : ℚ) * 100),
        ev.now, true, ?_⟩
      rw [i3Step_content env st ev _ ev.now true hc (fetchPhase_fetch env st ev u hn hu)]
      simp [GoImpl.emitPhase, hp]
  · intro α env st st' ev out f h
    cases hc : GoImpl.isContentLine ev.line with
    | false =>
      rw [i3Step_skip env st ev hc] at h
      simp at h
      obtain ⟨h1, h2, h3⟩ := h
      simp [← h1, h2]
    | true =>
      rw [GoImpl.i3Step, hc] at h
      simp at h
      cases hf : GoImpl.fetchPhase env st ev with
      | error e => rw [hf] at h; simp at h
      | ok trip =>
        obtain ⟨c, t, f'⟩ := trip
        rw [hf] at h
        simp at h
        obtain ⟨h1, h2, h3⟩ := h
        simp [← h1, ← h2]

/-- Witness for C1: the first specification-example frame is emitted as the
usage element followed by the original element, with no leading comma. -/
theorem claimC1_witness :
    ∃ (c : String) (t : Nat) (f : Bool),
      GoImpl.i3Step GoImpl.abEnv GoImpl.i3Init GoImpl.evA =
        Except.ok (⟨false, t, some c⟩,
          some ((if (GoImpl.i3Init (α := String)).first then "" else ",")
            ++ GoImpl.abEnv.render (c :: ["A"])), f) :=
  claimC1_frame_injection.1 String GoImpl.abEnv GoImpl.i3Init GoImpl.evA ["A"]
    (by decide) (by decide) (fun _ => ⟨⟨[]⟩, rfl⟩)

/-- C2: a fetch is performed on a content line exactly when the cache is
absent or more than sixty seconds old; two content frames fewer than sixty
seconds apart trigger exactly one fetch over the run, while a second frame
more than sixty seconds later triggers a second fetch. -/
theorem claimC2_refresh_cadence :
    (∀ (α : Type) (env : GoImpl.I3Env α) (st st' : GoImpl.I3State α) (ev : GoImpl.LineEvent)
        (out : Option String) (f : Bool),
        GoImpl.isContentLine ev.line = true →
        GoImpl.i3Step env st ev = Except.ok (st', out, f) →
        (f = true ↔ (st.cachedItem = none ∨ 60 < ev.now - st.lastFetch)))
  ∧ (∀ (α : Type) (env : GoImpl.I3Env α) (ev1 ev2 : GoImpl.LineEvent)
        (u : GoImpl.UsageResponse),
        GoImpl.isContentLine ev1.line = true → GoImpl.isContentLine ev2.line = true →
        ev1.fetch = Except.ok u → ev1.now ≤ ev2.now → ev2.now - ev1.now < 60 →
        ∃ outs, GoImpl.i3Run env GoImpl.i3Init [ev1, ev2] = Except.ok (outs, 1))
  ∧ (∀ (α : Type) (env : GoImpl.I3Env α) (ev1 ev2 : GoImpl.LineEvent)
        (u1 u2 : GoImpl.UsageResponse),
        GoImpl.isContentLine ev1.line = true → GoImpl.isContentLine ev2.line = true →
        ev1.fetch = Except.ok u1 → ev2.fetch = Except.ok u2 →
        60 < ev2.now - ev1.now →
        ∃ outs, GoImpl.i3Run env GoImpl.i3Init [ev1, ev2] = Except.ok (outs, 2)) := by
  refine ⟨?_, ?_, ?_⟩
  · intro α env st st' ev out f hc h
    cases hn : GoImpl.needFetch st ev.now with
    | false =>
      obtain ⟨c, hcache⟩ := needFetch_false_cache st ev.now hn
      rw [i3Step_content env st ev c st.lastFetch false hc
        (fetchPhase_reuse env st ev c hn hcache)] at h
      simp at h
      obtain ⟨-, -, h3⟩ := h
      subst h3
      unfold GoImpl.needFetch at hn
      simp [hcache] at hn
      simp [hcache, hn]
    | true =>
      cases hfe : ev.fetch with
      | error e =>
        rw [GoImpl.i3Step, hc] at h
        obtain ⟨⟩ := e
        rw [fetchPhase_err env st ev hn hfe] at h
        simp at h
      | ok u =>
        rw [i3Step_content env st ev _ ev.now true hc
          (fetchPhase_fetch env st ev u hn hfe)] at h
        simp at h
        obtain ⟨-, -, h3⟩ := h
        subst h3
        unfold GoImpl.needFetch at hn
        simp [Option.isNone_iff_eq_none] at hn
        simp
        tauto
  · intro α env ev1 ev2 u hc1 hc2 hf1 hmono hgap
    have hn1 : GoImpl.needFetch (GoImpl.i3Init (α := α)) ev1.now = true := by
      simp [GoImpl.needFetch, GoImpl.i3Init]
    have h1 := i3Step_content env GoImpl.i3Init ev1 _ ev1.now true hc1
      (fetchPhase_fetch env GoImpl.i3Init ev1 u hn1 hf1)
    set c1 := env.usageOf (calculateTotalUsage u.usageItems / (env.limit : ℚ) * 100) with hc1def
    have hn2 : GoImpl.needFetch (⟨false, ev1.now, some c1⟩ : GoImpl.I3State α) ev2.now = false := by
      simp [GoImpl.needFetch]
      omega
    have h2 := i3Step_content env (⟨false, ev1.now, some c1⟩ : GoImpl.I3State α) ev2 c1 ev1.now
      false hc2 (fetchPhase_reuse env _ ev2 c1 hn2 rfl)
    have hrun : GoImpl.i3Run env GoImpl.i3Init [ev1, ev2] =
        Except.ok ([GoImpl.emitPhase env (GoImpl.i3Init (α := α)).first c1 (GoImpl.contentBody ev1.line),
          GoImpl.emitPhase env false c1 (GoImpl.contentBody ev2.line)], 1) := by
      simp only [GoImpl.i3Run, h1, h2]
      simp [GoImpl.i3Init]
    exact ⟨_, hrun⟩
  · intro α env ev1 ev2 u1 u2 hc1 hc2 hf1 hf2 hgap
    have hn1 : GoImpl.needFetch (GoImpl.i3Init (α := α)) ev1.now = true := by
      simp [GoImpl.needFetch, GoImpl.i3Init]
    have h1 := i3Step_content env GoImpl.i3Init ev1 _ ev1.now true hc1
      (fetchPhase_fetch env GoImpl.i3Init ev1 u1 hn1 hf1)
    set c1 := env.usageOf (calculateTotalUsage u1.usageItems / (env.limit : ℚ) * 100) with hc1def
    have hn2 : GoImpl.needFetch (⟨false, ev1.now, some c1⟩ : GoImpl.I3State α) ev2.now = true := by
      simp [GoImpl.needFetch]
      omega
    have h2 := i3Step_content env (⟨false, ev1.now, some c1⟩ : GoImpl.I3State α) ev2 _ ev2.now
      true hc2 (fetchPhase_fetch env _ ev2 u2 hn2 hf2)
    have hrun : GoImpl.i3Run env GoImpl.i3Init [ev1, ev2] =
        Except.ok ([GoImpl.emitPhase env (GoImpl.i3Init (α := α)).first c1 (GoImpl.contentBody ev1.line),
          GoImpl.emitPhase env false
            (env.usageOf (calculateTotalUsage u2.usageItems / (env.limit : ℚ) * 100))
            (GoImpl.contentBody ev2.line)], 2) := by
      simp only [GoImpl.i3Run, h1, h2]
      simp [GoImpl.i3Init]
    exact ⟨_, hrun⟩

/-- Witness for C2: the specification example, frames thirty seconds apart
with a working endpoint, performs exactly one fetch; the late variant a
hundred seconds apart performs two. -/
theorem claimC2_witness :
    (∃ outs, GoImpl.i3Run GoImpl.abEnv GoImpl.i3Init [GoImpl.evA, GoImpl.evB]
        = Except.ok (outs, 1))
      ∧ (∃ outs, GoImpl.i3Run GoImpl.abEnv GoImpl.i3Init [GoImpl.evA, GoImpl.evBLate]
        = Except.ok (outs, 2)) :=
  ⟨claimC2_refresh_cadence.2.1 String GoImpl.abEnv GoImpl.evA GoImpl.evB ⟨[]⟩
      (by decide) (by decide) rfl (by decide) (by decide),
   claimC2_refresh_cadence.2.2 String GoImpl.abEnv GoImpl.evA GoImpl.evBLate ⟨[]⟩ ⟨[]⟩
      (by decide) (by decide) rfl rfl (by decide)⟩

/-- C3 (amended): in Streaming mode every usage fetch failure is fatal — the
step propagates fetchUsage's non-zero exit — also when a cached usage
element exists; no stale-cache fallback is performed. -/
theorem claimC3_fetch_failure_fatal (α : Type) (env : GoImpl.I3Env α)
    (st : GoImpl.I3State α) (ev : GoImpl.LineEvent)
    (hc : GoImpl.isContentLine ev.line = true)
    (hn : GoImpl.needFetch st ev.now = true)
    (hf : ev.fetch = Except.error ()) :
    GoImpl.i3Step env st ev = Except.error () := by
  simp [GoImpl.i3Step, hc, fetchPhase_err env st ev hn hf]

/-- C3 counterexample: with a cached element present and ninety seconds old,
a failing fetch terminates the run fatally instead of falling back to the
stale cache. -/
theorem claimC3_cex :
    GoImpl.staleState.cachedItem.isSome = true
      ∧ GoImpl.i3Step GoImpl.plainEnv GoImpl.staleState GoImpl.evFail = Except.error () :=
  ⟨rfl, rfl⟩

/-- Witness for C3: the fatal-failure theorem applied at the stale-cache
state and the failing event. -/
theorem claimC3_witness :
    GoImpl.i3Step GoImpl.plainEnv GoImpl.staleState GoImpl.evFail = Except.error () :=
  claimC3_fetch_failure_fatal GoImpl.BarItem GoImpl.plainEnv GoImpl.staleState GoImpl.evFail
    (by decide) (by decide) rfl

/-- C9 (amended): a content line that does not parse as an element array is
never dropped: provided any fetch it triggers succeeds, the step emits it
with surrounding whitespace trimmed, the leading separator stripped, and a
leading comma re-added exactly when the frame is not the first emitted —
otherwise byte-identical. -/
theorem claimC9_passthrough (α : Type) (env : GoImpl.I3Env α) (st : GoImpl.I3State α)
    (ev : GoImpl.LineEvent)
    (hc : GoImpl.isContentLine ev.line = true)
    (hp : env.parse (GoImpl.contentBody ev.line) = none)
    (hfok : GoImpl.needFetch st ev.now = true → ∃ u, ev.fetch = Except.ok u) :
    ∃ (c : α) (t : Nat) (f : Bool),
      GoImpl.i3Step env st ev =
        Except.ok (⟨false, t, some c⟩,
          some ((if st.first then "" else ",") ++ GoImpl.contentBody ev.line), f) := by
  cases hn : GoImpl.needFetch st ev.now with
  | false =>
    obtain ⟨c, hcache⟩ := needFetch_false_cache st ev.now hn
    refine ⟨c, st.lastFetch, false, ?_⟩
    rw [i3Step_content env st ev c st.lastFetch false hc (fetchPhase_reuse env st ev c hn hcache)]
    simp [GoImpl.emitPhase, hp]
  | true =>
    obtain ⟨u, hu⟩ := hfok hn
    refine ⟨env.usageOf (calculateTotalUsage u.usageItems / (env.limit : ℚ) * 100),
      ev.now, true, ?_⟩
    rw [i3Step_content env st ev _ ev.now true hc (fetchPhase_fetch env st ev u hn hu)]
    simp [GoImpl.emitPhase, hp]

/-- Witness for C9: the unparseable line "garbage " passes through as the
first emitted frame. -/
theorem claimC9_witness :
    ∃ (c : GoImpl.BarItem) (t : Nat) (f : Bool),
      GoImpl.i3Step GoImpl.plainEnv GoImpl.i3Init GoImpl.evRaw =
        Except.ok (⟨false, t, some c⟩,
          some ((if (GoImpl.i3Init (α := GoImpl.BarItem)).first then "" else ",")
            ++ GoImpl.contentBody GoImpl.evRaw.line), f) :=
  claimC9_passthrough GoImpl.BarItem GoImpl.plainEnv GoImpl.i3Init GoImpl.evRaw
    (by decide) rfl (fun _ => ⟨⟨[]⟩, rfl⟩)

/-- C9 counterexample: the unparseable input line "garbage " (with a trailing
space) is re-emitted as "garbage" — no separator is involved on this first
frame, yet the output differs from the input by the trimmed whitespace, so
the pass-through is not byte-identical. -/
theorem claimC9_cex :
    GoImpl.stepOutput (GoImpl.i3Step GoImpl.plainEnv GoImpl.i3Init GoImpl.evRaw)
        = some "garbage"
      ∧ GoImpl.evRaw.line = "garbage "
      ∧ some "garbage" ≠ some GoImpl.evRaw.line :=
  ⟨rfl, rfl, by decide⟩

/-- Reading back an updated association list: the written key holds the new
value, every other key is untouched. -/
theorem getAssocD_setAssoc (q k : String) (v : ℚ) (m : List (String × ℚ)) :
    TsImpl.getAssocD q (TsImpl.setAssoc k v m) = if k = q then v else TsImpl.getAssocD q m := by
  induction m with
  | nil => simp [TsImpl.setAssoc, TsImpl.getAssocD]
  | cons e t ih =>
    obtain ⟨a, b⟩ := e
    by_cases hak : a = k
    · subst hak
      by_cases haq : a = q <;> simp [TsImpl.setAssoc, TsImpl.getAssocD, haq]
    · by_cases haq : a = q
      · subst haq
        have hkq : ¬k = a := fun h => hak h.symm
        simp [TsImpl.setAssoc, TsImpl.getAssocD, hak, hkq]
      · by_cases hkq : k = q
        · subst hkq
          simp [TsImpl.setAssoc, TsImpl.getAssocD, hak, haq, ih]
        · simp [TsImpl.setAssoc, TsImpl.getAssocD, hak, haq, hkq, ih]

/-- Quantity contributed by the head item to a category. -/
theorem categorySum_cons (q : String) (it : UsageItem) (t : List UsageItem) :
    TsImpl.categorySum q (it :: t) =
      (if TsImpl.categoryKey it = q then it.grossQuantity else 0) + TsImpl.categorySum q t := by
  by_cases h : TsImpl.categoryKey it = q <;>
    simp [TsImpl.categorySum, List.filter_cons, h]

/-- Folding the aggregation over any accumulator adds exactly the per-category
sums of the processed items. -/
theorem getAssocD_aggFold (items : List UsageItem) (q : String) :
    ∀ acc : List (String × ℚ),
      TsImpl.getAssocD q (items.foldl TsImpl.aggStep acc) =
        TsImpl.getAssocD q acc + TsImpl.categorySum q items := by
  induction items with
  | nil => intro acc; simp [TsImpl.categorySum]
  | cons it t ih =>
    intro acc
    rw [List.foldl_cons, ih, categorySum_cons]
    have hstep : TsImpl.getAssocD q (TsImpl.aggStep acc it) =
        TsImpl.getAssocD q acc + (if TsImpl.categoryKey it = q then it.grossQuantity else 0) := by
      unfold TsImpl.aggStep
      rw [getAssocD_setAssoc]
      by_cases h : TsImpl.categoryKey it = q
      · rw [if_pos h, if_pos h, h]
      · rw [if_neg h, if_neg h, add_zero]
    rw [hstep]
    ring

/-- The aggregated value of a category is its reference sum. -/
theorem getAssocD_aggregateByModel (items : List UsageItem) (q : String) :
    TsImpl.getAssocD q (TsImpl.aggregateByModel items) = TsImpl.categorySum q items := by
  have h := getAssocD_aggFold items q []
  simpa [TsImpl.aggregateByModel, TsImpl.getAssocD] using h

/-- Per-category sums are invariant under permutation of the input items. -/
theorem categorySum_perm {items₁ items₂ : List UsageItem} (h : items₁.Perm items₂)
    (q : String) : TsImpl.categorySum q items₁ = TsImpl.categorySum q items₂ :=
  List.Perm.sum_eq ((h.filter _).map _)

/-- Membership in the stable insertion. -/
theorem mem_insertByCountDesc {x y : String × ℚ} {l : List (String × ℚ)} :
    y ∈ TsImpl.insertByCountDesc x l ↔ y = x ∨ y ∈ l := by
  induction l with
  | nil => simp [TsImpl.insertByCountDesc]
  | cons e t ih =>
    by_cases h : x.2 < e.2
    · simp [TsImpl.insertByCountDesc, h, ih]
      tauto
    · simp [TsImpl.insertByCountDesc, h]

/-- The stable insertion preserves the descending-by-count invariant. -/
theorem pairwise_insertByCountDesc {x : String × ℚ} {l : List (String × ℚ)}
    (hl : l.Pairwise (fun a b => b.2 ≤ a.2)) :
    (TsImpl.insertByCountDesc x l).Pairwise (fun a b => b.2 ≤ a.2) := by
  induction l with
  | nil => simp [TsImpl.insertByCountDesc]
  | cons e t ih =>
    rcases List.pairwise_cons.1 hl with ⟨he, ht⟩
    by_cases h : x.2 < e.2
    · simp only [TsImpl.insertByCountDesc, if_pos h]
      refine List.pairwise_cons.2 ⟨?_, ih ht⟩
      intro y hy
      rcases mem_insertByCountDesc.1 hy with rfl | hy
      · exact le_of_lt h
      · exact he y hy
    · simp only [TsImpl.insertByCountDesc, if_neg h]
      refine List.pairwise_cons.2 ⟨?_, hl⟩
      intro y hy
      rcases List.mem_cons.1 hy with rfl | hy
      · exact not_lt.1 h
      · exact le_trans (he y hy) (not_lt.1 h)

/-- The presenter sort output is descending by summed quantity. -/
theorem pairwise_sortByCountDesc (l : List (String × ℚ)) :
    (TsImpl.sortByCountDesc l).Pairwise (fun a b => b.2 ≤ a.2) := by
  induction l with
  | nil => simp [TsImpl.sortByCountDesc]
  | cons h t ih => exact pairwise_insertByCountDesc ih

/-- The stable insertion is a permutation of consing. -/
theorem perm_insertByCountDesc (x : String × ℚ) (l : List (String × ℚ)) :
    (TsImpl.insertByCountDesc x l).Perm (x :: l) := by
  induction l with
  | nil => exact List.Perm.refl _
  | cons e t ih =>
    by_cases h : x.2 < e.2
    · simp only [TsImpl.insertByCountDesc, if_pos h]
      exact (ih.cons e).trans (List.Perm.swap x e t)
    · simp only [TsImpl.insertByCountDesc, if_neg h]
      exact List.Perm.refl _

/-- The presenter sort permutes its input. -/
theorem perm_sortByCountDesc (l : List (String × ℚ)) :
    (TsImpl.sortByCountDesc l).Perm l := by
  induction l with
  | nil => exact List.Perm.refl _
  | cons h t ih => exact (perm_insertByCountDesc h _).trans (ih.cons h)

/-- Filtering one count class through the stable insertion: the new element
lands in front of its own class, every other class is untouched. -/
theorem filter_insertByCountDesc (x : String × ℚ) (l : List (String × ℚ)) (c : ℚ) :
    (TsImpl.insertByCountDesc x l).filter (fun e => decide (e.2 = c)) =
      if x.2 = c then x :: l.filter (fun e => decide (e.2 = c))
      else l.filter (fun e => decide (e.2 = c)) := by
  induction l with
  | nil => by_cases hx : x.2 = c <;> simp [TsImpl.insertByCountDesc, hx]
  | cons e t ih =>
    by_cases h : x.2 < e.2
    · simp only [TsImpl.insertByCountDesc, if_pos h, List.filter_cons]
      by_cases hx : x.2 = c
      · have he : ¬e.2 = c := by
          intro hec
          rw [hx] at h
          rw [hec] at h
          exact lt_irrefl c h
        simp [hx, he, ih]
      · by_cases he : e.2 = c <;> simp [hx, he, ih]
    · simp only [TsImpl.insertByCountDesc, if_neg h, List.filter_cons]
      by_cases hx : x.2 = c <;> by_cases he : e.2 = c <;> simp [hx, he]

/-- The presenter sort is stable: each count class appears in the same order
as in its input. -/
theorem filter_sortByCountDesc (l : List (String × ℚ)) (c : ℚ) :
    (TsImpl.sortByCountDesc l).filter (fun e => decide (e.2 = c)) =
      l.filter (fun e => decide (e.2 = c)) := by
  induction l with
  | nil => rfl
  | cons e t ih =>
    simp only [TsImpl.sortByCountDesc, filter_insertByCountDesc, List.filter_cons, ih]
    by_cases he : e.2 = c <;> simp [he]

/-- C7 (amended): per-category aggregation groups by category label with sums
independent of input order, and the TS presenter lists entries sorted by
descending summed quantity with ties kept in the categories' first-occurrence
(insertion) order — the sort is a stable permutation of the aggregation, not
a lexicographic tie-break. -/
theorem claimC7_category_order :
    (∀ items₁ items₂ : List UsageItem, items₁.Perm items₂ →
        ∀ k, TsImpl.getAssocD k (TsImpl.aggregateByModel items₁)
          = TsImpl.getAssocD k (TsImpl.aggregateByModel items₂))
  ∧ (∀ items : List UsageItem,
      (TsImpl.sortedModels items).Pairwise (fun a b => b.2 ≤ a.2))
  ∧ (∀ items : List UsageItem,
      (TsImpl.sortedModels items).Perm (TsImpl.aggregateByModel items))
  ∧ (∀ (items : List UsageItem) (c : ℚ),
      (TsImpl.sortedModels items).filter (fun e => decide (e.2 = c))
        = (TsImpl.aggregateByModel items).filter (fun e => decide (e.2 = c))) := by
  refine ⟨?_, ?_, ?_, ?_⟩
  · intro items₁ items₂ hperm k
    rw [getAssocD_aggregateByModel, getAssocD_aggregateByModel]
    exact categorySum_perm hperm k
  · intro items
    exact pairwise_sortByCountDesc _
  · intro items
    exact perm_sortByCountDesc _
  · intro items c
    exact filter_sortByCountDesc _ c

/-- C7 counterexample: two categories with the equal summed quantity 5 are
listed with "zeta" (first occurrence) before "alpha" — first-occurrence
order, not the lexicographic ascending tie-break the claim asserts. -/
theorem claimC7_cex :
    TsImpl.sortedModels [⟨5, "zeta"⟩, ⟨5, "alpha"⟩] = [("zeta", 5), ("alpha", 5)]
      ∧ TsImpl.sortedModels [⟨5, "zeta"⟩, ⟨5, "alpha"⟩] ≠ [("alpha", 5), ("zeta", 5)] := by
  have h : TsImpl.sortedModels [⟨5, "zeta"⟩, ⟨5, "alpha"⟩] = [("zeta", 5), ("alpha", 5)] := by
    norm_num [TsImpl.sortedModels, TsImpl.aggregateByModel, TsImpl.aggStep, TsImpl.setAssoc,
      TsImpl.getAssocD, TsImpl.categoryKey, TsImpl.sortByCountDesc, TsImpl.insertByCountDesc,
      show ("zeta" : String) ≠ "" by decide, show ("alpha" : String) ≠ "" by decide,
      show ("zeta" : String) ≠ "alpha" by decide, show ("alpha" : String) ≠ "zeta" by decide]
  refine ⟨h, ?_⟩
  rw [h]
  decide

/-- Witness for C7: order-insensitivity applied to a two-item swap. -/
theorem claimC7_witness :
    TsImpl.getAssocD "a" (TsImpl.aggregateByModel [⟨1, "a"⟩, ⟨2, "b"⟩])
      = TsImpl.getAssocD "a" (TsImpl.aggregateByModel [⟨2, "b"⟩, ⟨1, "a"⟩]) :=
  claimC7_category_order.1 ([⟨1, "a"⟩, ⟨2, "b"⟩] : List UsageItem)
    ([⟨2, "b"⟩, ⟨1, "a"⟩] : List UsageItem)
    (List.Perm.swap (⟨2, "b"⟩ : UsageItem) (⟨1, "a"⟩ : UsageItem) []) "a"
